import Mathlib

/-!
# Verification of the Graylog MCP server's request/response adapter logic

A shallow embedding of `src/index.ts`: the config resolver, the HTTP client
wrapper (GET/POST request building, query-parameter serialization, error
classification), the payload normalizer (`cleanPayload` / `withFields`), the
response formatter (`formatSearchResult`), and the four tool handlers
(`search_relative_logs`, `count_relative_logs`, `search_absolute_logs`,
`count_absolute_logs`).

JavaScript objects are embedded as association lists with string keys; the
values occurring in request payloads are embedded by `JsValue`
(undefined, null, string, integer number, boolean, string array), and JSON
values produced for tool results by `Json`.  Effects are made explicit:
`process.env` is a `ProcessEnv` argument, and the single `fetch` call a
handler performs is an explicit `FetchOutcome` argument describing what the
network did (transport failure, or an HTTP response with status, status
text, readable-or-not body text, and the JSON decoding result of the body).
-/

set_option maxRecDepth 8192

namespace GraylogMcp

/-- A JavaScript value as it occurs in outgoing request payloads
(`Record<string, unknown>` restricted to the shapes the program builds). -/
inductive JsValue where
  | undef
  | null
  | str (s : String)
  | num (n : Int)
  | bool (b : Bool)
  | strArr (elems : List String)
deriving DecidableEq, Repr

/-- A JSON value, used for backend message records and for the structured
success payload a tool hands to `JSON.stringify`. -/
inductive Json where
  | jnull
  | jstr (s : String)
  | jnum (n : Int)
  | jbool (b : Bool)
  | jarr (elems : List Json)
  | jobj (fields : List (String × Json))

/-- A JavaScript object (association list with string keys). -/
abbrev JsObject := List (String × JsValue)

/-- The relevant slice of `process.env`: the three Graylog variables, each
possibly unset. -/
structure ProcessEnv where
  GRAYLOG_BASE_URL : Option String
  GRAYLOG_USERNAME : Option String
  GRAYLOG_PASSWORD : Option String

/-- `type GraylogConfig` from the source. -/
structure GraylogConfig where
  baseUrl : String
  username : String
  password : String
deriving DecidableEq, Repr

/-- JavaScript falsiness of an optional environment string: `!x` is true for
`undefined` and for the empty string. -/
def envFalsy : Option String → Bool
  | none => true
  | some s => s.isEmpty

/-- The fixed configuration error message thrown by `getGraylogConfig`. -/
def missingConfigMsg : String :=
  "Missing Graylog configuration. Please set GRAYLOG_BASE_URL, GRAYLOG_USERNAME, and GRAYLOG_PASSWORD environment variables."

/-- `baseUrl.endsWith("/")`: the string's last character is a slash. -/
def endsWithSlash (s : String) : Bool :=
  s.data.getLast? == some '/'

/-- `getGraylogConfig` from the source: reads the three environment
variables, throws when any is falsy, and normalizes the base URL to end in
a slash. -/
def getGraylogConfig (env : ProcessEnv) : Except String GraylogConfig :=
  if envFalsy env.GRAYLOG_BASE_URL || envFalsy env.GRAYLOG_USERNAME ||
      envFalsy env.GRAYLOG_PASSWORD then
    .error missingConfigMsg
  else
    let u := env.GRAYLOG_BASE_URL.getD ""
    .ok { baseUrl := if endsWithSlash u then u else u ++ "/"
          username := env.GRAYLOG_USERNAME.getD ""
          password := env.GRAYLOG_PASSWORD.getD "" }

/-- Is a value `undefined` or `null`? -/
def JsValue.isNullish : JsValue → Bool
  | .undef => true
  | .null => true
  | _ => false

/-- `cleanPayload` from the source: drop every entry whose value is
`undefined` or `null`. -/
def cleanPayload (payload : JsObject) : JsObject :=
  payload.filter (fun kv => !kv.2.isNullish)

/-- The `...(fields && fields.length > 0 ? { fields: fields.join(",") } : {})`
spread inside `withFields`: the re-added `fields` entry, when the payload's
`fields` value is a present, non-empty list. -/
def fieldsEntryOf (payload : JsObject) : JsObject :=
  match List.lookup "fields" payload with
  | some (.strArr fs) =>
      if fs.length > 0 then [("fields", .str (String.intercalate "," fs))] else []
  | _ => []

/-- `withFields` from the source: split the `fields` key off the payload
(`const {fields, ...rest} = payload`), re-append it as a comma-joined
string when the list is present and non-empty, then clean the result. -/
def withFields (payload : JsObject) : JsObject :=
  cleanPayload (payload.filter (fun kv => kv.1 ≠ "fields") ++ fieldsEntryOf payload)

/-! ## UTF-8 and Base64 (the `Buffer.from(...).toString("base64")` call) -/

/-- UTF-8 encoding of a single character as byte values. -/
def charUtf8Bytes (c : Char) : List Nat :=
  let n := c.toNat
  if n < 0x80 then [n]
  else if n < 0x800 then [0xC0 + n / 64, 0x80 + n % 64]
  else if n < 0x10000 then [0xE0 + n / 4096, 0x80 + n / 64 % 64, 0x80 + n % 64]
  else [0xF0 + n / 0x40000, 0x80 + n / 4096 % 64, 0x80 + n / 64 % 64, 0x80 + n % 64]

/-- UTF-8 bytes of a string. -/
def utf8Bytes (s : String) : List Nat :=
  s.data.flatMap charUtf8Bytes

/-- The base64 alphabet. -/
def base64Char (n : Nat) : Char :=
  "ABCDEFGHIJKLMNOPQRSTUVWXYZabcdefghijklmnopqrstuvwxyz0123456789+/".data.getD n 'A'

/-- Base64 encoding of a byte list, three bytes at a time with `=` padding. -/
def base64Chunks : List Nat → List Char
  | [] => []
  | [b1] => [base64Char (b1 / 4), base64Char (b1 % 4 * 16), '=', '=']
  | [b1, b2] =>
      [base64Char (b1 / 4), base64Char (b1 % 4 * 16 + b2 / 16),
       base64Char (b2 % 16 * 4), '=']
  | b1 :: b2 :: b3 :: rest =>
      base64Char (b1 / 4) :: base64Char (b1 % 4 * 16 + b2 / 16) ::
      base64Char (b2 % 16 * 4 + b3 / 64) :: base64Char (b3 % 64) ::
      base64Chunks rest

/-- `Buffer.from(s).toString("base64")`. -/
def base64Encode (s : String) : String :=
  String.mk (base64Chunks (utf8Bytes s))

/-- The `Authorization` header value both request builders attach. -/
def basicAuthValue (config : GraylogConfig) : String :=
  "Basic " ++ base64Encode (config.username ++ ":" ++ config.password)

/-! ## HTTP client wrapper -/

/-- `String(value)` / `value.join(",")` serialization of one query-parameter
value in `graylogGet`; `none` means the entry is skipped because its value
is `undefined` or `null`. -/
def serializeJsParam : JsValue → Option String
  | .undef => none
  | .null => none
  | .str s => some s
  | .num n => some (toString n)
  | .bool b => some (if b then "true" else "false")
  | .strArr xs => some (String.intercalate "," xs)

/-- `url.searchParams.set`: replace the value of an existing key in place,
otherwise append the pair. -/
def setParam (qs : List (String × String)) (k v : String) : List (String × String) :=
  if qs.any (fun p => p.1 == k) then
    qs.map (fun p => if p.1 == k then (k, v) else p)
  else
    qs ++ [(k, v)]

/-- The query-string construction loop of `graylogGet`: skip
`undefined`/`null` values, serialize the rest, and `set` each pair. -/
def buildSearchParams (params : JsObject) : List (String × String) :=
  params.foldl
    (fun qs kv =>
      match serializeJsParam kv.2 with
      | none => qs
      | some sv => setParam qs kv.1 sv)
    []

/-- One payload entry serialized to a query-string pair; `none` when the
entry is dropped for being `undefined`/`null`. -/
def serializeEntry (kv : String × JsValue) : Option (String × String) :=
  (serializeJsParam kv.2).map (fun s => (kv.1, s))

/-- An outgoing GET request: resolved URL (before the query string), the
query parameters, and the headers. -/
structure GetRequest where
  url : String
  queryParams : List (String × String)
  headers : List (String × String)
deriving DecidableEq, Repr

/-- An outgoing POST request: resolved URL, headers, and the payload that is
sent as a JSON body. -/
structure PostRequest where
  url : String
  headers : List (String × String)
  body : JsObject
deriving DecidableEq, Repr

/-- Does the string start with a slash (the leading-slash regex test)? -/
def startsWithSlash (s : String) : Bool :=
  s.data.head? == some '/'

/-- `path.replace` with the leading-slash pattern: strip one leading slash. -/
def normalizePath (path : String) : String :=
  if startsWithSlash path then String.mk (path.data.drop 1) else path

/-- The request-building part of `graylogGet`: config resolution, URL
joining, query-parameter serialization and headers. -/
def graylogGetRequest (env : ProcessEnv) (path : String) (params : JsObject) :
    Except String GetRequest :=
  match getGraylogConfig env with
  | .error e => .error e
  | .ok config =>
      .ok { url := config.baseUrl ++ normalizePath path
            queryParams := buildSearchParams params
            headers :=
              [("Authorization", basicAuthValue config),
               ("X-Requested-By", "graylog-mcp"),
               ("Accept", "application/json")] }

/-- The request-building part of `graylogPost`: config resolution, URL
joining and headers; the payload travels as the JSON body. -/
def graylogPostRequest (env : ProcessEnv) (path : String) (payload : JsObject) :
    Except String PostRequest :=
  match getGraylogConfig env with
  | .error e => .error e
  | .ok config =>
      .ok { url := config.baseUrl ++ normalizePath path
            headers :=
              [("Authorization", basicAuthValue config),
               ("Content-Type", "application/json"),
               ("X-Requested-By", "graylog-mcp")]
            body := payload }

/-- One message entry of the backend's search response
(`GraylogSearchMessageEntry`). -/
structure GraylogSearchMessageEntry where
  index : String
  message : List (String × Json)
  highlight : Option (List (String × Json))

/-- The backend's search response (`GraylogSearchResponse`). -/
structure GraylogSearchResponse where
  query : String
  took_ms : Int
  total_results : Int
  messages : List GraylogSearchMessageEntry

/-- What the `fetch` call returned on the wire: HTTP status, status text,
the body text (`none` when `response.text()` rejects), and the result of
decoding the body as a `GraylogSearchResponse` (`response.json()`). -/
structure HttpResponse where
  status : Nat
  statusText : String
  bodyText : Option String
  jsonBody : Except String GraylogSearchResponse

/-- `response.ok`: status in the 2xx range. -/
def responseOk (r : HttpResponse) : Bool :=
  200 ≤ r.status && r.status ≤ 299

/-- The outcome of the single `fetch` a request performs: either the
transport failed (the promise rejected with the given message), or an HTTP
response arrived. -/
inductive FetchOutcome where
  | fetchFail (msg : String)
  | fetchOk (r : HttpResponse)

/-- Rendering of the full request URL used in the network-failure message
(`url.toString()`), with the query string attached. -/
def urlWithQuery (req : GetRequest) : String :=
  if req.queryParams.isEmpty then req.url
  else req.url ++ "?" ++ String.intercalate "&" (req.queryParams.map (fun p => p.1 ++ "=" ++ p.2))

/-- The HTTP-error message `Graylog request failed (status statusText): errorText`,
where `errorText` falls back to the status text when the body cannot be read. -/
def httpErrorMsg (r : HttpResponse) : String :=
  "Graylog request failed (" ++ toString r.status ++ " " ++ r.statusText ++ "): " ++
    (r.bodyText.getD r.statusText)

/-- The network-failure message `Failed to reach Graylog at url: msg`. -/
def fetchFailMsg (url msg : String) : String :=
  "Failed to reach Graylog at " ++ url ++ ": " ++ msg

/-- `graylogGet` from the source: build the request, perform the fetch, and
classify the outcome — network failure, non-2xx HTTP error, or the decoded
JSON body. -/
def graylogGet (env : ProcessEnv) (path : String) (params : JsObject)
    (outcome : FetchOutcome) : Except String GraylogSearchResponse :=
  match graylogGetRequest env path params with
  | .error e => .error e
  | .ok req =>
      match outcome with
      | .fetchFail msg => .error (fetchFailMsg (urlWithQuery req) msg)
      | .fetchOk r =>
          if responseOk r then r.jsonBody
          else .error (httpErrorMsg r)

/-- `graylogPost` from the source: same classification as `graylogGet`, with
the payload sent as a JSON body instead of query parameters. -/
def graylogPost (env : ProcessEnv) (path : String) (payload : JsObject)
    (outcome : FetchOutcome) : Except String GraylogSearchResponse :=
  match graylogPostRequest env path payload with
  | .error e => .error e
  | .ok req =>
      match outcome with
      | .fetchFail msg => .error (fetchFailMsg req.url msg)
      | .fetchOk r =>
          if responseOk r then r.jsonBody
          else .error (httpErrorMsg r)

/-! ## Tool inputs and their declared schemas -/

/-- A parsed `RelativeSearchInput` (the type inferred from
`relativeSearchInputSchema`). -/
structure RelativeSearchInput where
  query : String
  range : Int
  limit : Option Int
  offset : Option Int
  sort : Option String
  filter : Option String
  fields : Option (List String)
  decorate : Option Bool

/-- A parsed `AbsoluteSearchInput` (the type inferred from
`absoluteSearchInputSchema`). -/
structure AbsoluteSearchInput where
  query : String
  «from» : String
  «to» : String
  limit : Option Int
  offset : Option Int
  sort : Option String
  filter : Option String
  fields : Option (List String)
  decorate : Option Bool

/-- An optional number as a JavaScript value (`undefined` when unset). -/
def jsOfOptNum : Option Int → JsValue
  | none => .undef
  | some n => .num n

/-- An optional string as a JavaScript value. -/
def jsOfOptStr : Option String → JsValue
  | none => .undef
  | some s => .str s

/-- An optional boolean as a JavaScript value. -/
def jsOfOptBool : Option Bool → JsValue
  | none => .undef
  | some b => .bool b

/-- An optional string list as a JavaScript value. -/
def jsOfOptArr : Option (List String) → JsValue
  | none => .undef
  | some xs => .strArr xs

/-- The entries of a relative-search input viewed as a JavaScript object
(`{...input}`). -/
def relativeInputEntries (i : RelativeSearchInput) : JsObject :=
  [("query", .str i.query), ("range", .num i.range),
   ("limit", jsOfOptNum i.limit), ("offset", jsOfOptNum i.offset),
   ("sort", jsOfOptStr i.sort), ("filter", jsOfOptStr i.filter),
   ("fields", jsOfOptArr i.fields), ("decorate", jsOfOptBool i.decorate)]

/-- The entries of an absolute-search input viewed as a JavaScript object. -/
def absoluteInputEntries (i : AbsoluteSearchInput) : JsObject :=
  [("query", .str i.query), ("from", .str i.«from»), ("to", .str i.«to»),
   ("limit", jsOfOptNum i.limit), ("offset", jsOfOptNum i.offset),
   ("sort", jsOfOptStr i.sort), ("filter", jsOfOptStr i.filter),
   ("fields", jsOfOptArr i.fields), ("decorate", jsOfOptBool i.decorate)]

/-- Spread-with-override `{...obj, k: v}`: replace the value of an existing
key in place, otherwise append the entry. -/
def objSet (obj : JsObject) (k : String) (v : JsValue) : JsObject :=
  if obj.any (fun p => p.1 == k) then
    obj.map (fun p => if p.1 == k then (k, v) else p)
  else
    obj ++ [(k, v)]

/-- The zod refinements of `relativeSearchInputDefinition` on a well-typed
input: `query` non-empty, `range` a positive integer, `limit` positive and
at most 1000 when given, `offset` non-negative when given, `fields` a
non-empty list of non-empty strings when given. -/
def relativeInputValid (i : RelativeSearchInput) : Bool :=
  1 ≤ i.query.length && 0 < i.range &&
  (match i.limit with | none => true | some l => 0 < l && l ≤ 1000) &&
  (match i.offset with | none => true | some o => 0 ≤ o) &&
  (match i.fields with
   | none => true
   | some fs => 0 < fs.length && fs.all (fun f => 1 ≤ f.length))

/-- The zod refinements of `absoluteSearchInputDefinition`: as the relative
ones, with non-empty `from`/`to` timestamps in place of `range`. -/
def absoluteInputValid (i : AbsoluteSearchInput) : Bool :=
  1 ≤ i.query.length && 1 ≤ i.«from».length && 1 ≤ i.«to».length &&
  (match i.limit with | none => true | some l => 0 < l && l ≤ 1000) &&
  (match i.offset with | none => true | some o => 0 ≤ o) &&
  (match i.fields with
   | none => true
   | some fs => 0 < fs.length && fs.all (fun f => 1 ≤ f.length))

/-! ## Response formatting and tool handlers -/

/-- The projection of one message entry inside `formatSearchResult`:
`{index, message, ...(entry.highlight ? {highlight} : {})}`. -/
def formatMessageEntry (entry : GraylogSearchMessageEntry) : Json :=
  .jobj ([("index", .jstr entry.index), ("message", .jobj entry.message)] ++
    (match entry.highlight with
     | some h => [("highlight", .jobj h)]
     | none => []))

/-- `formatSearchResult` from the source: project the backend response to
the four exposed fields, mapping each message entry through
`formatMessageEntry`. -/
def formatSearchResult (data : GraylogSearchResponse) : Json :=
  .jobj [("query", .jstr data.query), ("took_ms", .jnum data.took_ms),
         ("total_results", .jnum data.total_results),
         ("messages", .jarr (data.messages.map formatMessageEntry))]

/-- The three-field projection the two count tools build inline. -/
def countProjection (data : GraylogSearchResponse) : Json :=
  .jobj [("query", .jstr data.query), ("took_ms", .jnum data.took_ms),
         ("total_results", .jnum data.total_results)]

/-- A tool handler's result: a success payload (the structured value handed
to `JSON.stringify`) or an error result carrying the failure's message. -/
inductive ToolResult where
  | success (payload : Json)
  | error (message : String)

/-- The keys of a JSON object (empty for non-objects). -/
def jsonKeys : Json → List String
  | .jobj fields => fields.map Prod.fst
  | _ => []

/-- Field lookup in a JSON object. -/
def jsonLookup (j : Json) (k : String) : Option Json :=
  match j with
  | .jobj fields => List.lookup k fields
  | _ => none

/-- The payload `withFields({...input, limit: input.limit ?? 150})` built by
`search_relative_logs`. -/
def searchRelativePayload (i : RelativeSearchInput) : JsObject :=
  withFields (objSet (relativeInputEntries i) "limit" (.num (i.limit.getD 150)))

/-- The payload `withFields({...input, limit: 0, offset: input.offset ?? 0})`
built by `count_relative_logs`. -/
def countRelativePayload (i : RelativeSearchInput) : JsObject :=
  withFields (objSet (objSet (relativeInputEntries i) "limit" (.num 0))
    "offset" (.num (i.offset.getD 0)))

/-- The payload built by `search_absolute_logs`. -/
def searchAbsolutePayload (i : AbsoluteSearchInput) : JsObject :=
  withFields (objSet (absoluteInputEntries i) "limit" (.num (i.limit.getD 150)))

/-- The payload built by `count_absolute_logs`. -/
def countAbsolutePayload (i : AbsoluteSearchInput) : JsObject :=
  withFields (objSet (objSet (absoluteInputEntries i) "limit" (.num 0))
    "offset" (.num (i.offset.getD 0)))

/-- The path of the relative universal-search endpoint. -/
def relativeEndpoint : String := "api/search/universal/relative"

/-- The path of the absolute universal-search endpoint. -/
def absoluteEndpoint : String := "api/search/universal/absolute"

/-- The `search_relative_logs` handler: build the payload, perform the GET,
format the response; any thrown failure is caught and returned as an error
result carrying its message. -/
def searchRelativeLogsHandler (env : ProcessEnv) (input : RelativeSearchInput)
    (outcome : FetchOutcome) : ToolResult :=
  match graylogGet env relativeEndpoint (searchRelativePayload input) outcome with
  | .ok data => .success (formatSearchResult data)
  | .error e => .error e

/-- The `count_relative_logs` handler. -/
def countRelativeLogsHandler (env : ProcessEnv) (input : RelativeSearchInput)
    (outcome : FetchOutcome) : ToolResult :=
  match graylogGet env relativeEndpoint (countRelativePayload input) outcome with
  | .ok data => .success (countProjection data)
  | .error e => .error e

/-- The `search_absolute_logs` handler. -/
def searchAbsoluteLogsHandler (env : ProcessEnv) (input : AbsoluteSearchInput)
    (outcome : FetchOutcome) : ToolResult :=
  match graylogGet env absoluteEndpoint (searchAbsolutePayload input) outcome with
  | .ok data => .success (formatSearchResult data)
  | .error e => .error e

/-- The `count_absolute_logs` handler. -/
def countAbsoluteLogsHandler (env : ProcessEnv) (input : AbsoluteSearchInput)
    (outcome : FetchOutcome) : ToolResult :=
  match graylogGet env absoluteEndpoint (countAbsolutePayload input) outcome with
  | .ok data => .success (countProjection data)
  | .error e => .error e

/-- Modelled from the spec: the agent-protocol transport library validates a
tool's declared input schema before invoking the registered handler; an
input failing validation is reported as a tool-level error and the handler
— hence any network activity — never runs.  (The validation step itself
lives in the MCP SDK, outside this repository; only the schema it enforces
is declared in `src/index.ts`.) -/
def dispatchRelativeTool
    (handler : ProcessEnv → RelativeSearchInput → FetchOutcome → ToolResult)
    (env : ProcessEnv) (input : RelativeSearchInput) (outcome : FetchOutcome) :
    ToolResult :=
  if relativeInputValid input then handler env input outcome
  else .error "Input validation failed"

/-- Modelled from the spec: schema validation for the absolute tools, as
`dispatchRelativeTool`. -/
def dispatchAbsoluteTool
    (handler : ProcessEnv → AbsoluteSearchInput → FetchOutcome → ToolResult)
    (env : ProcessEnv) (input : AbsoluteSearchInput) (outcome : FetchOutcome) :
    ToolResult :=
  if absoluteInputValid input then handler env input outcome
  else .error "Input validation failed"

/-- Substring containment, used to state what an error message names. -/
def strContains (hay pat : String) : Prop :=
  List.IsInfix pat.data hay.data

instance (hay pat : String) : Decidable (strContains hay pat) := by
  unfold strContains; infer_instance

/-! ## Association-list lemmas about the payload pipeline -/

theorem lookup_none_of_keys {β : Type} {k : String} {l : List (String × β)}
    (h : ∀ p ∈ l, p.1 ≠ k) : List.lookup k l = none := by
  induction l with
  | nil => rfl
  | cons p t ih =>
      obtain ⟨k', v⟩ := p
      have hk : (k == k') = false :=
        beq_eq_false_iff_ne.mpr fun e => h (k', v) (List.mem_cons_self ..) e.symm
      simpa [List.lookup, hk] using ih fun q hq => h q (List.mem_cons_of_mem _ hq)

theorem lookup_append {β : Type} (k : String) (l₁ l₂ : List (String × β)) :
    List.lookup k (l₁ ++ l₂) = (List.lookup k l₁).or (List.lookup k l₂) := by
  induction l₁ with
  | nil => simp [List.lookup]
  | cons p t ih =>
      obtain ⟨k', v⟩ := p
      cases hk : (k == k') <;> simp [List.lookup, hk, ih]

theorem setParam_of_absent {acc : List (String × String)} {k v : String}
    (h : ∀ q ∈ acc, q.1 ≠ k) : setParam acc k v = acc ++ [(k, v)] := by
  have hany : acc.any (fun p => p.1 == k) = false := by
    simp only [List.any_eq_false]
    exact fun q hq hb => h q hq (eq_of_beq hb)
  simp [setParam, hany]

theorem buildSearchParams_go (ps : JsObject) (acc : List (String × String))
    (hd : ∀ p ∈ ps, ∀ q ∈ acc, p.1 ≠ q.1) (hnd : (ps.map Prod.fst).Nodup) :
    ps.foldl
      (fun qs kv =>
        match serializeJsParam kv.2 with
        | none => qs
        | some sv => setParam qs kv.1 sv)
      acc = acc ++ ps.filterMap serializeEntry := by
  induction ps generalizing acc with
  | nil => simp
  | cons kv t ih =>
      obtain ⟨k, v⟩ := kv
      simp only [List.map_cons, List.nodup_cons] at hnd
      cases hser : serializeJsParam v with
      | none =>
          have he : serializeEntry (k, v) = none := by simp [serializeEntry, hser]
          simp only [List.foldl_cons, List.filterMap_cons, hser, he]
          exact ih acc (fun p hp q hq => hd p (List.mem_cons_of_mem _ hp) q hq) hnd.2
      | some sv =>
          have he : serializeEntry (k, v) = some (k, sv) := by
            simp [serializeEntry, hser]
          have habs : ∀ q ∈ acc, q.1 ≠ k :=
            fun q hq e => hd (k, v) (List.mem_cons_self ..) q hq e.symm
          have hd' : ∀ p ∈ t, ∀ q ∈ acc ++ [(k, sv)], p.1 ≠ q.1 := by
            intro p hp q hq
            rcases List.mem_append.mp hq with hq | hq
            · exact hd p (List.mem_cons_of_mem _ hp) q hq
            · simp only [List.mem_singleton] at hq
              subst hq
              intro e
              apply hnd.1
              have e' : p.1 = k := e
              rw [← e']
              exact List.mem_map_of_mem Prod.fst hp
          simp only [List.foldl_cons, List.filterMap_cons, hser, he,
            setParam_of_absent habs]
          rw [ih (acc ++ [(k, sv)]) hd' hnd.2]
          simp

theorem buildSearchParams_eq_filterMap (ps : JsObject)
    (hnd : (ps.map Prod.fst).Nodup) :
    buildSearchParams ps = ps.filterMap serializeEntry := by
  simpa using buildSearchParams_go ps [] (by simp) hnd

theorem fst_mem_of_mem_filterMap {ps : JsObject} {p : String × String}
    (h : p ∈ ps.filterMap serializeEntry) : p.1 ∈ ps.map Prod.fst := by
  rcases List.mem_filterMap.mp h with ⟨kv, hkv, hser⟩
  rcases Option.map_eq_some'.mp hser with ⟨s, _, hs⟩
  exact hs ▸ List.mem_map_of_mem Prod.fst hkv

theorem lookup_filterMap_ser (ps : JsObject) (k : String)
    (hnd : (ps.map Prod.fst).Nodup) :
    List.lookup k (ps.filterMap serializeEntry) =
      (List.lookup k ps).bind serializeJsParam := by
  induction ps with
  | nil => rfl
  | cons kv t ih =>
      obtain ⟨k', v⟩ := kv
      simp only [List.map_cons, List.nodup_cons] at hnd
      rw [List.filterMap_cons]
      cases hk : (k == k') with
      | true =>
          have hkk : k = k' := eq_of_beq hk
          cases hser : serializeJsParam v with
          | none =>
              have he : serializeEntry (k', v) = none := by
                simp [serializeEntry, hser]
              have hnone : List.lookup k (List.filterMap serializeEntry t) = none := by
                apply lookup_none_of_keys
                intro p hp e
                apply hnd.1
                rw [← hkk, ← e]
                exact fst_mem_of_mem_filterMap hp
              simp [he, hnone, List.lookup, hk, hser]
          | some sv =>
              have he : serializeEntry (k', v) = some (k', sv) := by
                simp [serializeEntry, hser]
              simp [he, List.lookup, hk, hser]
      | false =>
          cases hser : serializeJsParam v with
          | none =>
              have he : serializeEntry (k', v) = none := by
                simp [serializeEntry, hser]
              simpa [he, List.lookup, hk] using ih hnd.2
          | some sv =>
              have he : serializeEntry (k', v) = some (k', sv) := by
                simp [serializeEntry, hser]
              simpa [he, List.lookup, hk] using ih hnd.2

theorem lookup_buildSearchParams (ps : JsObject) (k : String)
    (hnd : (ps.map Prod.fst).Nodup) :
    List.lookup k (buildSearchParams ps) =
      (List.lookup k ps).bind serializeJsParam := by
  rw [buildSearchParams_eq_filterMap ps hnd, lookup_filterMap_ser ps k hnd]

theorem lookup_cleanPayload (p : JsObject) (k : String)
    (hnd : (p.map Prod.fst).Nodup) :
    List.lookup k (cleanPayload p) =
      Option.filter (fun v => !v.isNullish) (List.lookup k p) := by
  induction p with
  | nil => rfl
  | cons kv t ih =>
      obtain ⟨k', v⟩ := kv
      simp only [List.map_cons, List.nodup_cons] at hnd
      cases hk : (k == k') with
      | true =>
          have hkk : k = k' := eq_of_beq hk
          cases hnull : v.isNullish with
          | true =>
              have hnone : List.lookup k (cleanPayload t) = none := by
                apply lookup_none_of_keys
                intro q hq e
                have hqt : q ∈ t := List.mem_of_mem_filter hq
                apply hnd.1
                rw [← hkk, ← e]
                exact List.mem_map_of_mem Prod.fst hqt
              have hclean : cleanPayload ((k', v) :: t) = cleanPayload t := by
                simp [cleanPayload, List.filter_cons, hnull]
              rw [hclean, hnone]
              simp [List.lookup, hk, Option.filter, hnull]
          | false =>
              have hclean : cleanPayload ((k', v) :: t) = (k', v) :: cleanPayload t := by
                simp [cleanPayload, List.filter_cons, hnull]
              rw [hclean]
              simp [List.lookup, hk, Option.filter, hnull]
      | false =>
          cases hnull : v.isNullish with
          | true =>
              have hclean : cleanPayload ((k', v) :: t) = cleanPayload t := by
                simp [cleanPayload, List.filter_cons, hnull]
              rw [hclean]
              simpa [List.lookup, hk] using ih hnd.2
          | false =>
              have hclean : cleanPayload ((k', v) :: t) = (k', v) :: cleanPayload t := by
                simp [cleanPayload, List.filter_cons, hnull]
              rw [hclean]
              simpa [List.lookup, hk] using ih hnd.2

theorem rest_keys_ne_fields (p : JsObject) :
    ∀ q ∈ p.filter (fun kv => kv.1 ≠ "fields"), q.1 ≠ "fields" := by
  intro q hq
  simpa using List.of_mem_filter hq

theorem fieldsEntryOf_cases (p : JsObject) :
    fieldsEntryOf p = [] ∨ ∃ s, fieldsEntryOf p = [("fields", JsValue.str s)] := by
  unfold fieldsEntryOf
  rcases List.lookup "fields" p with _ | v
  · exact .inl rfl
  · rcases v with _ | _ | s | n | b | fs
    · exact .inl rfl
    · exact .inl rfl
    · exact .inl rfl
    · exact .inl rfl
    · exact .inl rfl
    · rcases fs with _ | ⟨f, fs⟩
      · exact .inl rfl
      · exact .inr ⟨String.intercalate "," (f :: fs), by simp⟩

theorem fieldsEntryOf_keys (p : JsObject) :
    ∀ q ∈ fieldsEntryOf p, q.1 = "fields" := by
  intro q hq
  rcases fieldsEntryOf_cases p with h | ⟨s, h⟩ <;> rw [h] at hq
  · cases hq
  · simp only [List.mem_singleton] at hq
    rw [hq]

theorem withFields_core_nodup (p : JsObject) (hnd : (p.map Prod.fst).Nodup) :
    (((p.filter (fun kv => kv.1 ≠ "fields")) ++ fieldsEntryOf p).map Prod.fst).Nodup := by
  have hrest : ((p.filter (fun kv => kv.1 ≠ "fields")).map Prod.fst).Nodup :=
    hnd.sublist ((List.filter_sublist p).map Prod.fst)
  have hne : ∀ a ∈ (p.filter (fun kv => kv.1 ≠ "fields")).map Prod.fst,
      a ≠ "fields" := by
    intro a ha
    rcases List.mem_map.mp ha with ⟨q, hq, rfl⟩
    exact rest_keys_ne_fields p q hq
  rw [List.map_append]
  rcases fieldsEntryOf_cases p with h | ⟨s, h⟩ <;> rw [h]
  · simpa using hrest
  · rw [List.nodup_append]
    refine ⟨hrest, by simp, ?_⟩
    intro a ha hb
    simp only [List.map_cons, List.map_nil, List.mem_singleton] at hb
    exact hne a ha hb

theorem withFields_keys_nodup (p : JsObject) (hnd : (p.map Prod.fst).Nodup) :
    ((withFields p).map Prod.fst).Nodup := by
  unfold withFields cleanPayload
  exact (withFields_core_nodup p hnd).sublist
    ((List.filter_sublist _).map Prod.fst)

theorem lookup_filter_of_keeps {β : Type} (k : String) (l : List (String × β))
    (f : String × β → Bool) (hf : ∀ q ∈ l, q.1 = k → f q = true) :
    List.lookup k (l.filter f) = List.lookup k l := by
  induction l with
  | nil => rfl
  | cons q t ih =>
      obtain ⟨k', v⟩ := q
      have ih' := ih fun q hq e => hf q (List.mem_cons_of_mem _ hq) e
      cases hbeq : (k == k') with
      | true =>
          have hkeep : f (k', v) = true :=
            hf (k', v) (List.mem_cons_self ..) (eq_of_beq hbeq).symm
          simp [List.filter_cons, hkeep, List.lookup, hbeq]
      | false =>
          cases hcond : f (k', v) <;>
            simp [List.filter_cons, hcond, List.lookup, hbeq, ih']

theorem lookup_filter_ne (p : JsObject) (k : String) (hk : k ≠ "fields") :
    List.lookup k (p.filter (fun kv => kv.1 ≠ "fields")) = List.lookup k p := by
  apply lookup_filter_of_keeps
  intro q _ e
  simp [e, hk]

theorem lookup_withFields_ne (p : JsObject) (k : String) (hk : k ≠ "fields")
    (hnd : (p.map Prod.fst).Nodup) :
    List.lookup k (withFields p) =
      Option.filter (fun v => !v.isNullish) (List.lookup k p) := by
  unfold withFields
  rw [lookup_cleanPayload _ _ (withFields_core_nodup p hnd), lookup_append,
    lookup_filter_ne p k hk,
    lookup_none_of_keys (fun q hq e => hk (e.symm.trans (fieldsEntryOf_keys p q hq)))]
  simp

theorem lookup_withFields_fields (p : JsObject) (hnd : (p.map Prod.fst).Nodup) :
    List.lookup "fields" (withFields p) =
      match List.lookup "fields" p with
      | some (.strArr (f :: fs)) => some (.str (String.intercalate "," (f :: fs)))
      | _ => none := by
  unfold withFields
  rw [lookup_cleanPayload _ _ (withFields_core_nodup p hnd), lookup_append,
    lookup_none_of_keys (rest_keys_ne_fields p)]
  unfold fieldsEntryOf
  rcases List.lookup "fields" p with _ | v
  · rfl
  · rcases v with _ | _ | s | n | b | fs
    · rfl
    · rfl
    · rfl
    · rfl
    · rfl
    · rcases fs with _ | ⟨f, fs⟩
      · rfl
      · simp [List.lookup, Option.filter, JsValue.isNullish]

theorem lookup_map_replace_self (p : JsObject) (k : String) (v : JsValue)
    (hany : ∃ q ∈ p, q.1 = k) :
    List.lookup k (p.map (fun q => if q.1 = k then (k, v) else q)) = some v := by
  induction p with
  | nil => simp at hany
  | cons q t ih =>
      obtain ⟨k', w⟩ := q
      by_cases h : k' = k
      · simp only [List.map_cons]
        rw [if_pos h]
        simp [List.lookup]
      · have hany' : ∃ q ∈ t, q.1 = k := by
          rcases hany with ⟨q, hq, hqk⟩
          rcases List.mem_cons.mp hq with rfl | hq
          · exact absurd hqk h
          · exact ⟨q, hq, hqk⟩
        have hk2 : (k == k') = false := beq_eq_false_iff_ne.mpr (Ne.symm h)
        simp only [List.map_cons]
        rw [if_neg h]
        simp only [List.lookup, hk2]
        exact ih hany'

theorem lookup_map_replace_other (p : JsObject) (k k' : String) (v : JsValue)
    (hk : k ≠ k') :
    List.lookup k (p.map (fun q => if q.1 = k' then (k', v) else q)) =
      List.lookup k p := by
  induction p with
  | nil => rfl
  | cons q t ih =>
      obtain ⟨k₀, w⟩ := q
      by_cases h0 : k₀ = k'
      · have hkk0 : (k == k₀) = false := beq_eq_false_iff_ne.mpr (h0 ▸ hk)
        have hkk' : (k == k') = false := beq_eq_false_iff_ne.mpr hk
        simp only [List.map_cons]
        rw [if_pos h0]
        simp only [List.lookup, hkk0, hkk']
        exact ih
      · simp only [List.map_cons]
        rw [if_neg h0]
        cases hbeq : (k == k₀) <;> simp [List.lookup, hbeq, ih]

theorem lookup_objSet (p : JsObject) (k k' : String) (v : JsValue) :
    List.lookup k (objSet p k' v) = if k = k' then some v else List.lookup k p := by
  unfold objSet
  cases hany : p.any (fun q => q.1 == k') with
  | true =>
      have hex : ∃ q ∈ p, q.1 = k' := by
        rcases List.any_eq_true.mp hany with ⟨q, hq, hqk⟩
        exact ⟨q, hq, eq_of_beq hqk⟩
      by_cases hk : k = k'
      · subst hk
        rw [if_pos rfl, if_pos rfl]
        simp only [beq_iff_eq]
        exact lookup_map_replace_self p k v hex
      · rw [if_pos rfl, if_neg hk]
        simp only [beq_iff_eq]
        exact lookup_map_replace_other p k k' v hk
  | false =>
      rw [if_neg (by simp)]
      by_cases hk : k = k'
      · subst hk
        have hnone : List.lookup k p = none := by
          apply lookup_none_of_keys
          intro q hq e
          exact List.any_eq_false.mp hany q hq (beq_iff_eq.mpr e)
        rw [if_pos rfl, lookup_append, hnone]
        simp [List.lookup]
      · have hkk' : (k == k') = false := beq_eq_false_iff_ne.mpr hk
        rw [if_neg hk, lookup_append]
        simp [List.lookup, hkk']

theorem objSet_keys_nodup (p : JsObject) (k : String) (v : JsValue)
    (hnd : (p.map Prod.fst).Nodup) : ((objSet p k v).map Prod.fst).Nodup := by
  unfold objSet
  cases hany : p.any (fun q => q.1 == k) with
  | true =>
      rw [if_pos rfl]
      have hkeys : ((p.map (fun q => if (q.1 == k) = true then (k, v) else q)).map
          Prod.fst) = p.map Prod.fst := by
        rw [List.map_map]
        apply List.map_congr_left
        intro q _
        by_cases h0 : (q.1 == k) = true
        · simp only [Function.comp]
          rw [if_pos h0]
          exact (eq_of_beq h0).symm
        · simp only [Function.comp]
          rw [if_neg h0]
      rw [hkeys]
      exact hnd
  | false =>
      rw [if_neg (by simp)]
      have hknotin : k ∉ p.map Prod.fst := by
        intro hmem
        rcases List.mem_map.mp hmem with ⟨q, hq, rfl⟩
        exact List.any_eq_false.mp hany q hq (beq_iff_eq.mpr rfl)
      simp only [List.map_append, List.map_cons, List.map_nil, List.nodup_append]
      refine ⟨hnd, by simp, ?_⟩
      intro a ha hb
      simp only [List.mem_singleton] at hb
      exact hknotin (hb ▸ ha)

theorem keyUnique {β : Type} {ps : List (String × β)} (hnd : (ps.map Prod.fst).Nodup)
    {k : String} {v v' : β} (h1 : (k, v) ∈ ps) (h2 : (k, v') ∈ ps) : v = v' := by
  induction ps with
  | nil => cases h1
  | cons q t ih =>
      simp only [List.map_cons, List.nodup_cons] at hnd
      rcases List.mem_cons.mp h1 with h1 | h1 <;> rcases List.mem_cons.mp h2 with h2 | h2
      · cases h1.trans h2.symm
        rfl
      · exfalso
        apply hnd.1
        have : q.1 = k := by rw [← h1]
        rw [this]
        exact List.mem_map_of_mem Prod.fst h2
      · exfalso
        apply hnd.1
        have : q.1 = k := by rw [← h2]
        rw [this]
        exact List.mem_map_of_mem Prod.fst h1
      · exact ih hnd.2 h1 h2

theorem serializeJsParam_none_of_nullish {v : JsValue} (h : v.isNullish = true) :
    serializeJsParam v = none := by
  cases v <;> first | rfl | cases h

theorem relativeInputEntries_keys (i : RelativeSearchInput) :
    (relativeInputEntries i).map Prod.fst =
      ["query", "range", "limit", "offset", "sort", "filter", "fields", "decorate"] :=
  rfl

theorem absoluteInputEntries_keys (i : AbsoluteSearchInput) :
    (absoluteInputEntries i).map Prod.fst =
      ["query", "from", "to", "limit", "offset", "sort", "filter", "fields",
       "decorate"] :=
  rfl

theorem searchRelativeInner_nodup (i : RelativeSearchInput) :
    (((objSet (relativeInputEntries i) "limit"
        (.num (i.limit.getD 150))).map Prod.fst)).Nodup :=
  objSet_keys_nodup _ _ _ (by rw [relativeInputEntries_keys]; decide)

theorem countRelativeInner_nodup (i : RelativeSearchInput) :
    (((objSet (objSet (relativeInputEntries i) "limit" (.num 0)) "offset"
        (.num (i.offset.getD 0))).map Prod.fst)).Nodup :=
  objSet_keys_nodup _ _ _
    (objSet_keys_nodup _ _ _ (by rw [relativeInputEntries_keys]; decide))

theorem searchAbsoluteInner_nodup (i : AbsoluteSearchInput) :
    (((objSet (absoluteInputEntries i) "limit"
        (.num (i.limit.getD 150))).map Prod.fst)).Nodup :=
  objSet_keys_nodup _ _ _ (by rw [absoluteInputEntries_keys]; decide)

theorem countAbsoluteInner_nodup (i : AbsoluteSearchInput) :
    (((objSet (objSet (absoluteInputEntries i) "limit" (.num 0)) "offset"
        (.num (i.offset.getD 0))).map Prod.fst)).Nodup :=
  objSet_keys_nodup _ _ _
    (objSet_keys_nodup _ _ _ (by rw [absoluteInputEntries_keys]; decide))

/-! ## Claim theorems -/

theorem isEmpty_false_of_ne {s : String} (h : s ≠ "") : s.isEmpty = false := by
  cases he : s.isEmpty
  · rfl
  · exact absurd ((String.isEmpty_iff _).mp he) h

/-- C5: `getGraylogConfig` fails with a configuration error whose message
names the missing variable(s) exactly when any of the three environment
values is absent or empty, and otherwise returns the config whose base URL
is the environment value with `/` appended iff it did not already end with
`/`. -/
theorem getGraylogConfig_spec (env : ProcessEnv) :
    ((∃ e, getGraylogConfig env = .error e) ↔
      (envFalsy env.GRAYLOG_BASE_URL || envFalsy env.GRAYLOG_USERNAME ||
        envFalsy env.GRAYLOG_PASSWORD) = true)
    ∧ (∀ o : Option String, envFalsy o = true ↔ (o = none ∨ o = some ""))
    ∧ (∀ e, getGraylogConfig env = .error e →
        e = missingConfigMsg ∧ strContains e "GRAYLOG_BASE_URL" ∧
        strContains e "GRAYLOG_USERNAME" ∧ strContains e "GRAYLOG_PASSWORD")
    ∧ (∀ u user pass, env.GRAYLOG_BASE_URL = some u →
        env.GRAYLOG_USERNAME = some user → env.GRAYLOG_PASSWORD = some pass →
        u ≠ "" → user ≠ "" → pass ≠ "" →
        getGraylogConfig env = .ok
          { baseUrl := if endsWithSlash u then u else u ++ "/"
            username := user, password := pass }) := by
  refine ⟨?_, ?_, ?_, ?_⟩
  · by_cases h : (envFalsy env.GRAYLOG_BASE_URL || envFalsy env.GRAYLOG_USERNAME ||
        envFalsy env.GRAYLOG_PASSWORD) = true
    · exact ⟨fun _ => h, fun _ => ⟨missingConfigMsg, by simp [getGraylogConfig, h]⟩⟩
    · refine ⟨fun ⟨e, he⟩ => absurd ?_ h, fun hc => absurd hc h⟩
      by_contra hne
      simp [getGraylogConfig, hne] at he
  · intro o
    cases o with
    | none => simp [envFalsy]
    | some s => simp [envFalsy, String.isEmpty_iff]
  · intro e he
    have hmsg : e = missingConfigMsg := by
      by_cases h : (envFalsy env.GRAYLOG_BASE_URL || envFalsy env.GRAYLOG_USERNAME ||
          envFalsy env.GRAYLOG_PASSWORD) = true
      · simpa [getGraylogConfig, h] using he.symm
      · simp [getGraylogConfig, h] at he
    subst hmsg
    exact ⟨rfl, by decide, by decide, by decide⟩

  · intro u user pass hu huser hpass hu0 huser0 hpass0
    have e1 : envFalsy (some u) = false := isEmpty_false_of_ne hu0
    have e2 : envFalsy (some user) = false := isEmpty_false_of_ne huser0
    have e3 : envFalsy (some pass) = false := isEmpty_false_of_ne hpass0
    simp [getGraylogConfig, hu, huser, hpass, e1, e2, e3]

/-- Witness for C5: with the base URL unset the config resolver fails with
the fixed message (which names the unset variable), and with all three set
it succeeds, appending `/` to a base URL that lacks one. -/
theorem getGraylogConfig_spec_witness :
    (getGraylogConfig ⟨none, some "u", some "p"⟩ = .error missingConfigMsg
      ∧ strContains missingConfigMsg "GRAYLOG_BASE_URL")
    ∧ getGraylogConfig ⟨some "http://g", some "u", some "p"⟩ =
        .ok { baseUrl := "http://g/", username := "u", password := "p" } := by
  have h1 :=
    (getGraylogConfig_spec ⟨none, some "u", some "p"⟩).2.2.1 missingConfigMsg rfl
  have h2 :=
    (getGraylogConfig_spec ⟨some "http://g", some "u", some "p"⟩).2.2.2
      "http://g" "u" "p" rfl rfl rfl (by decide) (by decide) (by decide)
  exact ⟨⟨rfl, h1.2.1⟩, h2⟩

/-- C6: on a non-2xx response both HTTP wrappers fail with the HTTP error
message carrying the numeric status, the status text, and the body text
(the status text alone when the body cannot be read), and each of the four
tools returns an error result containing the numeric status. -/
theorem graylog_http_error_spec (env : ProcessEnv) (cfg : GraylogConfig)
    (path : String) (params payload : JsObject)
    (ri : RelativeSearchInput) (ai : AbsoluteSearchInput) (r : HttpResponse)
    (hcfg : getGraylogConfig env = .ok cfg) (hok : responseOk r = false) :
    graylogGet env path params (.fetchOk r) = .error (httpErrorMsg r)
    ∧ graylogPost env path payload (.fetchOk r) = .error (httpErrorMsg r)
    ∧ strContains (httpErrorMsg r) (toString r.status)
    ∧ strContains (httpErrorMsg r) r.statusText
    ∧ (∀ b, r.bodyText = some b → strContains (httpErrorMsg r) b)
    ∧ (r.bodyText = none →
        httpErrorMsg r =
          "Graylog request failed (" ++ toString r.status ++ " " ++ r.statusText ++
            "): " ++ r.statusText)
    ∧ searchRelativeLogsHandler env ri (.fetchOk r) = .error (httpErrorMsg r)
    ∧ countRelativeLogsHandler env ri (.fetchOk r) = .error (httpErrorMsg r)
    ∧ searchAbsoluteLogsHandler env ai (.fetchOk r) = .error (httpErrorMsg r)
    ∧ countAbsoluteLogsHandler env ai (.fetchOk r) = .error (httpErrorMsg r) := by
  have hget : ∀ ps : JsObject, ∀ pa : String,
      graylogGet env pa ps (.fetchOk r) = .error (httpErrorMsg r) := by
    intro ps pa
    simp [graylogGet, graylogGetRequest, hcfg, hok]
  refine ⟨hget params path, ?_, ?_, ?_, ?_, ?_, ?_, ?_, ?_, ?_⟩
  · simp [graylogPost, graylogPostRequest, hcfg, hok]
  · refine ⟨"Graylog request failed (".data,
      (" " ++ r.statusText ++ "): " ++ (r.bodyText.getD r.statusText)).data, ?_⟩
    simp [httpErrorMsg, String.data_append, List.append_assoc]
  · refine ⟨("Graylog request failed (" ++ toString r.status ++ " ").data,
      ("): " ++ (r.bodyText.getD r.statusText)).data, ?_⟩
    simp [httpErrorMsg, String.data_append, List.append_assoc]
  · intro b hb
    refine ⟨("Graylog request failed (" ++ toString r.status ++ " " ++
      r.statusText ++ "): ").data, [], ?_⟩
    simp [httpErrorMsg, hb, String.data_append, List.append_assoc]
  · intro hb
    simp [httpErrorMsg, hb]
  · simp [searchRelativeLogsHandler, hget]
  · simp [countRelativeLogsHandler, hget]
  · simp [searchAbsoluteLogsHandler, hget]
  · simp [countAbsoluteLogsHandler, hget]

/-- Witness for C6: a concrete 404 response against a resolvable config
makes `graylogGet` fail and the relative search tool return an error
result naming the status. -/
theorem graylog_http_error_spec_witness :
    graylogGet ⟨some "http://g/", some "u", some "p"⟩ "x" []
        (.fetchOk ⟨404, "Not Found", some "nope", .error "no json"⟩) =
      .error (httpErrorMsg ⟨404, "Not Found", some "nope", .error "no json"⟩)
    ∧ strContains (httpErrorMsg ⟨404, "Not Found", some "nope", .error "no json"⟩)
        (toString (404 : Nat)) := by
  have h := graylog_http_error_spec ⟨some "http://g/", some "u", some "p"⟩
    ⟨"http://g/", "u", "p"⟩ "x" [] []
    ⟨"q", 1, none, none, none, none, none, none⟩
    ⟨"q", "a", "b", none, none, none, none, none, none⟩
    ⟨404, "Not Found", some "nope", .error "no json"⟩ rfl rfl
  exact ⟨h.1, h.2.2.1⟩

/-- C10: every outbound request built by `graylogGet` or `graylogPost`
carries the `X-Requested-By: graylog-mcp` header in addition to the
`Authorization` header. -/
theorem requests_carry_x_requested_by (env : ProcessEnv) (path : String)
    (params payload : JsObject) :
    (∀ req, graylogGetRequest env path params = .ok req →
        ("X-Requested-By", "graylog-mcp") ∈ req.headers
        ∧ ∃ v, ("Authorization", v) ∈ req.headers)
    ∧ (∀ req, graylogPostRequest env path payload = .ok req →
        ("X-Requested-By", "graylog-mcp") ∈ req.headers
        ∧ ∃ v, ("Authorization", v) ∈ req.headers) := by
  constructor
  · intro req hreq
    cases hcfg : getGraylogConfig env with
    | error e => simp [graylogGetRequest, hcfg] at hreq
    | ok cfg =>
        simp only [graylogGetRequest, hcfg] at hreq
        cases hreq
        exact ⟨by simp, basicAuthValue cfg, by simp⟩
  · intro req hreq
    cases hcfg : getGraylogConfig env with
    | error e => simp [graylogPostRequest, hcfg] at hreq
    | ok cfg =>
        simp only [graylogPostRequest, hcfg] at hreq
        cases hreq
        exact ⟨by simp, basicAuthValue cfg, by simp⟩

/-- C4: for every input and every failure raised during execution, each of
the four tool handlers returns an error result whose text is the failure's
message; on success it returns a success result; these are the only two
outcomes, so nothing propagates past the handler boundary. -/
theorem handler_error_boundary (env : ProcessEnv) (ri : RelativeSearchInput)
    (ai : AbsoluteSearchInput) (outcome : FetchOutcome) :
    (∀ e, graylogGet env relativeEndpoint (searchRelativePayload ri) outcome = .error e →
        searchRelativeLogsHandler env ri outcome = .error e)
    ∧ (∀ d, graylogGet env relativeEndpoint (searchRelativePayload ri) outcome = .ok d →
        searchRelativeLogsHandler env ri outcome = .success (formatSearchResult d))
    ∧ (∀ e, graylogGet env relativeEndpoint (countRelativePayload ri) outcome = .error e →
        countRelativeLogsHandler env ri outcome = .error e)
    ∧ (∀ d, graylogGet env relativeEndpoint (countRelativePayload ri) outcome = .ok d →
        countRelativeLogsHandler env ri outcome = .success (countProjection d))
    ∧ (∀ e, graylogGet env absoluteEndpoint (searchAbsolutePayload ai) outcome = .error e →
        searchAbsoluteLogsHandler env ai outcome = .error e)
    ∧ (∀ d, graylogGet env absoluteEndpoint (searchAbsolutePayload ai) outcome = .ok d →
        searchAbsoluteLogsHandler env ai outcome = .success (formatSearchResult d))
    ∧ (∀ e, graylogGet env absoluteEndpoint (countAbsolutePayload ai) outcome = .error e →
        countAbsoluteLogsHandler env ai outcome = .error e)
    ∧ (∀ d, graylogGet env absoluteEndpoint (countAbsolutePayload ai) outcome = .ok d →
        countAbsoluteLogsHandler env ai outcome = .success (countProjection d))
    ∧ (∀ res : ToolResult, (∃ v, res = .success v) ∨ (∃ e, res = .error e)) := by
  refine ⟨?_, ?_, ?_, ?_, ?_, ?_, ?_, ?_, ?_⟩
  · intro e h; simp [searchRelativeLogsHandler, h]
  · intro d h; simp [searchRelativeLogsHandler, h]
  · intro e h; simp [countRelativeLogsHandler, h]
  · intro d h; simp [countRelativeLogsHandler, h]
  · intro e h; simp [searchAbsoluteLogsHandler, h]
  · intro d h; simp [searchAbsoluteLogsHandler, h]
  · intro e h; simp [countAbsoluteLogsHandler, h]
  · intro d h; simp [countAbsoluteLogsHandler, h]
  · intro res
    cases res with
    | success v => exact .inl ⟨v, rfl⟩
    | error e => exact .inr ⟨e, rfl⟩

/-- Witness for C4: with the base URL unset, the relative search handler
catches the configuration failure and returns it as an error result. -/
theorem handler_error_boundary_witness :
    graylogGet ⟨none, some "u", some "p"⟩ relativeEndpoint
        (searchRelativePayload ⟨"q", 1, none, none, none, none, none, none⟩)
        (.fetchFail "down") = .error missingConfigMsg
    ∧ searchRelativeLogsHandler ⟨none, some "u", some "p"⟩
        ⟨"q", 1, none, none, none, none, none, none⟩ (.fetchFail "down") =
      .error missingConfigMsg := by
  refine ⟨rfl, ?_⟩
  exact (handler_error_boundary ⟨none, some "u", some "p"⟩
    ⟨"q", 1, none, none, none, none, none, none⟩
    ⟨"q", "a", "b", none, none, none, none, none, none⟩ (.fetchFail "down")).1
    missingConfigMsg rfl

/-- C9: the declared input schemas reject a `limit` above 1000 and (for the
relative tools) a `range` at most 0, and a rejected input is reported as a
tool error before the handler — hence any network activity — runs. -/
theorem input_schema_boundary :
    (∀ i : RelativeSearchInput, ∀ l, i.limit = some l → 1000 < l →
        relativeInputValid i = false)
    ∧ (∀ i : RelativeSearchInput, i.range ≤ 0 → relativeInputValid i = false)
    ∧ (∀ i : AbsoluteSearchInput, ∀ l, i.limit = some l → 1000 < l →
        absoluteInputValid i = false)
    ∧ (∀ h env i o₁ o₂, relativeInputValid i = false →
        dispatchRelativeTool h env i o₁ = .error "Input validation failed"
        ∧ dispatchRelativeTool h env i o₁ = dispatchRelativeTool h env i o₂)
    ∧ (∀ h env i o₁ o₂, absoluteInputValid i = false →
        dispatchAbsoluteTool h env i o₁ = .error "Input validation failed"
        ∧ dispatchAbsoluteTool h env i o₁ = dispatchAbsoluteTool h env i o₂) := by
  refine ⟨?_, ?_, ?_, ?_, ?_⟩
  · intro i l hl hgt
    have hle : (decide (l ≤ 1000)) = false := decide_eq_false (by omega)
    simp [relativeInputValid, hl, hle]
  · intro i hr
    have hlt : (decide (0 < i.range)) = false := decide_eq_false (by omega)
    simp [relativeInputValid, hlt]
  · intro i l hl hgt
    have hle : (decide (l ≤ 1000)) = false := decide_eq_false (by omega)
    simp [absoluteInputValid, hl, hle]
  · intro h env i o₁ o₂ hv
    simp [dispatchRelativeTool, hv]
  · intro h env i o₁ o₂ hv
    simp [dispatchAbsoluteTool, hv]

/-- Witness for C9: a relative input with `limit = 1001` is rejected by the
schema, and one with `range = 0` likewise. -/
theorem input_schema_boundary_witness :
    relativeInputValid ⟨"q", 5, some 1001, none, none, none, none, none⟩ = false
    ∧ relativeInputValid ⟨"q", 0, none, none, none, none, none, none⟩ = false
    ∧ absoluteInputValid ⟨"q", "a", "b", some 1001, none, none, none, none, none⟩ =
        false := by
  refine ⟨?_, ?_, ?_⟩
  · exact input_schema_boundary.1 ⟨"q", 5, some 1001, none, none, none, none, none⟩
      1001 rfl (by omega)
  · exact input_schema_boundary.2.1 ⟨"q", 0, none, none, none, none, none, none⟩
      (by decide)
  · exact input_schema_boundary.2.2.1
      ⟨"q", "a", "b", some 1001, none, none, none, none, none⟩ 1001 rfl (by omega)

/-- C3: `formatSearchResult` copies the three scalar fields, keeps the
`messages` length, projects each entry to `{index, message}`, and emits a
`highlight` key exactly when the source entry defines one. -/
theorem formatSearchResult_spec (data : GraylogSearchResponse) :
    jsonKeys (formatSearchResult data) =
      ["query", "took_ms", "total_results", "messages"]
    ∧ jsonLookup (formatSearchResult data) "query" = some (.jstr data.query)
    ∧ jsonLookup (formatSearchResult data) "took_ms" = some (.jnum data.took_ms)
    ∧ jsonLookup (formatSearchResult data) "total_results" =
        some (.jnum data.total_results)
    ∧ jsonLookup (formatSearchResult data) "messages" =
        some (.jarr (data.messages.map formatMessageEntry))
    ∧ (data.messages.map formatMessageEntry).length = data.messages.length
    ∧ (∀ e : GraylogSearchMessageEntry,
        jsonLookup (formatMessageEntry e) "index" = some (.jstr e.index)
        ∧ jsonLookup (formatMessageEntry e) "message" = some (.jobj e.message)
        ∧ jsonLookup (formatMessageEntry e) "highlight" =
            e.highlight.map (fun h => .jobj h)
        ∧ (jsonLookup (formatMessageEntry e) "highlight").isSome =
            e.highlight.isSome) := by
  refine ⟨rfl, rfl, rfl, rfl, rfl, List.length_map .., ?_⟩
  intro e
  cases hh : e.highlight with
  | none =>
      refine ⟨rfl, rfl, ?_, ?_⟩ <;>
        simp [formatMessageEntry, jsonLookup, List.lookup, hh]
  | some h =>
      refine ⟨rfl, rfl, ?_, ?_⟩ <;>
        simp [formatMessageEntry, jsonLookup, List.lookup, hh]


/-- Witness for C10: the concrete GET and POST requests built against a
resolvable config carry the `X-Requested-By: graylog-mcp` header, and the
GET request also carries the `Authorization` header. -/
theorem requests_carry_x_requested_by_witness :
    (("X-Requested-By", "graylog-mcp") ∈
      [("Authorization", basicAuthValue ⟨"http://g/", "u", "p"⟩),
       ("X-Requested-By", "graylog-mcp"), ("Accept", "application/json")])
    ∧ (("X-Requested-By", "graylog-mcp") ∈
      [("Authorization", basicAuthValue ⟨"http://g/", "u", "p"⟩),
       ("Content-Type", "application/json"), ("X-Requested-By", "graylog-mcp")])
    ∧ ("Authorization", basicAuthValue ⟨"http://g/", "u", "p"⟩) ∈
      [("Authorization", basicAuthValue ⟨"http://g/", "u", "p"⟩),
       ("X-Requested-By", "graylog-mcp"), ("Accept", "application/json")] := by
  have h := requests_carry_x_requested_by
    ⟨some "http://g/", some "u", some "p"⟩ "api/x" [] []
  have h1 := h.1 ⟨"http://g/api/x", [],
    [("Authorization", basicAuthValue ⟨"http://g/", "u", "p"⟩),
     ("X-Requested-By", "graylog-mcp"), ("Accept", "application/json")]⟩ rfl
  have h2 := h.2 ⟨"http://g/api/x",
    [("Authorization", basicAuthValue ⟨"http://g/", "u", "p"⟩),
     ("Content-Type", "application/json"), ("X-Requested-By", "graylog-mcp")],
    []⟩ rfl
  exact ⟨h1.1, h2.1, List.mem_cons_self ..⟩


/-- C2: `withFields` removes the `fields` key, re-adds it only when the
fields list is present and non-empty (comma-joined), removes every
remaining `undefined`/`null`-valued entry, and leaves all other keys and
values unchanged; in particular the two concrete examples hold. -/
theorem withFields_spec :
    (∀ p : JsObject, ∀ k : String, k ≠ "fields" →
        (withFields p).filter (fun kv => kv.1 == k) =
          p.filter (fun kv => kv.1 == k && !kv.2.isNullish))
    ∧ (∀ p : JsObject,
        (withFields p).filter (fun kv => kv.1 == "fields") =
          match List.lookup "fields" p with
          | some (.strArr fs) =>
              if fs.length > 0 then
                [("fields", JsValue.str (String.intercalate "," fs))]
              else []
          | _ => [])
    ∧ withFields [("fields", .strArr ["a", "b"]), ("x", .num 1)] =
        [("x", .num 1), ("fields", .str "a,b")]
    ∧ withFields [("fields", .strArr []), ("x", .num 1)] = [("x", .num 1)] := by
  refine ⟨?_, ?_, by decide, by decide⟩
  · intro p k hk
    unfold withFields cleanPayload
    rw [List.filter_append, List.filter_append]
    have hB : ((fieldsEntryOf p).filter (fun kv => !kv.2.isNullish)).filter
        (fun kv => kv.1 == k) = [] := by
      rw [List.filter_eq_nil_iff]
      intro a ha
      have ha' : a ∈ fieldsEntryOf p := List.mem_of_mem_filter ha
      have hfa : a.1 = "fields" := fieldsEntryOf_keys p a ha'
      simp [hfa, Ne.symm hk]
    rw [hB, List.append_nil, List.filter_filter, List.filter_filter]
    apply List.filter_congr
    intro a _
    cases h3 : (a.1 == k) with
    | true =>
        have hf : (decide (a.1 ≠ "fields")) = true := by
          simp [eq_of_beq h3, hk]
        cases h2 : (!a.2.isNullish) <;> simp [hf, h2]
    | false => simp
  · intro p
    unfold withFields cleanPayload
    rw [List.filter_append, List.filter_append]
    have hA : ((p.filter (fun kv => kv.1 ≠ "fields")).filter
        (fun kv => !kv.2.isNullish)).filter (fun kv => kv.1 == "fields") = [] := by
      rw [List.filter_eq_nil_iff]
      intro a ha
      have ha' : a ∈ p.filter (fun kv => kv.1 ≠ "fields") :=
        List.mem_of_mem_filter ha
      have hfa : a.1 ≠ "fields" := rest_keys_ne_fields p a ha'
      simp [hfa]
    have hB : ((fieldsEntryOf p).filter (fun kv => !kv.2.isNullish)).filter
        (fun kv => kv.1 == "fields") = fieldsEntryOf p := by
      rcases fieldsEntryOf_cases p with h | ⟨str, h⟩ <;> rw [h] <;>
        simp [List.filter_cons, JsValue.isNullish]
    rw [hA, hB, List.nil_append]
    rfl


/-- Witness for C2: dropping a null-valued key while keeping another, and
re-adding a non-empty fields list as a comma-joined string. -/
theorem withFields_spec_witness :
    (withFields [("x", JsValue.num 1), ("y", JsValue.null)]).filter
        (fun kv => kv.1 == "x") = [("x", JsValue.num 1)]
    ∧ (withFields [("fields", JsValue.strArr ["a", "b"]),
        ("x", JsValue.num 1)]).filter (fun kv => kv.1 == "fields") =
      [("fields", JsValue.str "a,b")] := by
  constructor
  · rw [withFields_spec.1 [("x", JsValue.num 1), ("y", JsValue.null)] "x"
      (by decide)]
    decide
  · rw [withFields_spec.2.1 [("fields", JsValue.strArr ["a", "b"]),
      ("x", JsValue.num 1)]]
    decide

/-- C7: `graylogGet` serializes exactly the entries whose values are
neither `undefined` nor `null` into the query string — lists joined with
commas, booleans as "true"/"false", everything else via its string form —
and nullish entries never appear among the query parameters. -/
theorem graylogGet_param_serialization (ps : JsObject)
    (hnd : (ps.map Prod.fst).Nodup) :
    buildSearchParams ps = ps.filterMap serializeEntry
    ∧ (∀ kv : String × JsValue, serializeEntry kv =
        (serializeJsParam kv.2).map (fun s => (kv.1, s)))
    ∧ (∀ k v, (k, v) ∈ ps → v.isNullish = true →
        ∀ s, (k, s) ∉ buildSearchParams ps)
    ∧ serializeJsParam .undef = none
    ∧ serializeJsParam .null = none
    ∧ (∀ xs, serializeJsParam (.strArr xs) = some (String.intercalate "," xs))
    ∧ (∀ b, serializeJsParam (.bool b) = some (if b then "true" else "false"))
    ∧ (∀ n, serializeJsParam (.num n) = some (toString n))
    ∧ (∀ str, serializeJsParam (.str str) = some str) := by
  refine ⟨buildSearchParams_eq_filterMap ps hnd, fun _ => rfl, ?_, rfl, rfl,
    fun _ => rfl, fun _ => rfl, fun _ => rfl, fun _ => rfl⟩
  intro k v hkv hnull s hmem
  rw [buildSearchParams_eq_filterMap ps hnd] at hmem
  rcases List.mem_filterMap.mp hmem with ⟨kv, hkvmem, hser⟩
  obtain ⟨k1, v1⟩ := kv
  rcases Option.map_eq_some'.mp hser with ⟨sv, hsv, heq⟩
  injection heq with h1 h2
  subst h1
  have hv : v1 = v := keyUnique hnd hkvmem hkv
  rw [hv, serializeJsParam_none_of_nullish hnull] at hsv
  cases hsv

/-- Witness for C7: a mixed payload serializes its number, list and boolean
entries and drops the null entry. -/
theorem graylogGet_param_serialization_witness :
    buildSearchParams [("a", JsValue.num 3), ("b", JsValue.null),
        ("c", JsValue.strArr ["x", "y"]), ("d", JsValue.bool true)] =
      [("a", "3"), ("c", "x,y"), ("d", "true")]
    ∧ ("b", "anything") ∉ buildSearchParams [("a", JsValue.num 3),
        ("b", JsValue.null), ("c", JsValue.strArr ["x", "y"]),
        ("d", JsValue.bool true)] := by
  have h := graylogGet_param_serialization [("a", JsValue.num 3),
    ("b", JsValue.null), ("c", JsValue.strArr ["x", "y"]),
    ("d", JsValue.bool true)] (by decide)
  constructor
  · rw [h.1]
    decide
  · exact h.2.2.1 "b" JsValue.null (by decide) rfl "anything"

/-- C8: the search tools default `limit` to 150 when unset, and forward a
caller-supplied `limit` unchanged into the outgoing GET request. -/
theorem search_tools_default_limit (env : ProcessEnv) (cfg : GraylogConfig)
    (ri : RelativeSearchInput) (ai : AbsoluteSearchInput)
    (hcfg : getGraylogConfig env = .ok cfg) :
    ((graylogGetRequest env relativeEndpoint (searchRelativePayload ri)).map
        (fun req => List.lookup "limit" req.queryParams) =
      .ok (some (toString (ri.limit.getD 150))))
    ∧ ((graylogGetRequest env absoluteEndpoint (searchAbsolutePayload ai)).map
        (fun req => List.lookup "limit" req.queryParams) =
      .ok (some (toString (ai.limit.getD 150))))
    ∧ (ri.limit = none → toString (ri.limit.getD 150) = "150")
    ∧ (∀ l, ri.limit = some l → toString (ri.limit.getD 150) = toString l)
    ∧ (ai.limit = none → toString (ai.limit.getD 150) = "150")
    ∧ (∀ l, ai.limit = some l → toString (ai.limit.getD 150) = toString l) := by
  refine ⟨?_, ?_, ?_, ?_, ?_, ?_⟩
  · simp only [graylogGetRequest, hcfg, Except.map]
    congr 1
    simp only [searchRelativePayload]
    rw [lookup_buildSearchParams _ _
        (withFields_keys_nodup _ (searchRelativeInner_nodup ri)),
      lookup_withFields_ne _ _ (by decide) (searchRelativeInner_nodup ri),
      lookup_objSet]
    rfl
  · simp only [graylogGetRequest, hcfg, Except.map]
    congr 1
    simp only [searchAbsolutePayload]
    rw [lookup_buildSearchParams _ _
        (withFields_keys_nodup _ (searchAbsoluteInner_nodup ai)),
      lookup_withFields_ne _ _ (by decide) (searchAbsoluteInner_nodup ai),
      lookup_objSet]
    rfl
  · intro h
    rw [h]
    rfl
  · intro l h
    rw [h]
    rfl
  · intro h
    rw [h]
    rfl
  · intro l h
    rw [h]
    rfl

/-- Witness for C8: with no caller limit the relative search request sends
limit=150; with limit=7 it sends 7. -/
theorem search_tools_default_limit_witness :
    ((graylogGetRequest ⟨some "http://g/", some "u", some "p"⟩ relativeEndpoint
        (searchRelativePayload ⟨"q", 5, none, none, none, none, none, none⟩)).map
      (fun req => List.lookup "limit" req.queryParams) = .ok (some "150"))
    ∧ ((graylogGetRequest ⟨some "http://g/", some "u", some "p"⟩ relativeEndpoint
        (searchRelativePayload ⟨"q", 5, some 7, none, none, none, none, none⟩)).map
      (fun req => List.lookup "limit" req.queryParams) = .ok (some "7")) := by
  constructor
  · have h := (search_tools_default_limit ⟨some "http://g/", some "u", some "p"⟩
      ⟨"http://g/", "u", "p"⟩ ⟨"q", 5, none, none, none, none, none, none⟩
      ⟨"q", "a", "b", none, none, none, none, none, none⟩ rfl).1
    simpa using h
  · have h := (search_tools_default_limit ⟨some "http://g/", some "u", some "p"⟩
      ⟨"http://g/", "u", "p"⟩ ⟨"q", 5, some 7, none, none, none, none, none⟩
      ⟨"q", "a", "b", none, none, none, none, none, none⟩ rfl).1
    simpa using h


/-- C1: the count tools always send `limit=0` and `offset` equal to the
caller's offset or 0 when unset (even when the caller supplied a positive
limit), and a successful result is exactly the three-field projection
`{query, took_ms, total_results}` with no `messages` key. -/
theorem count_tools_spec (env : ProcessEnv) (cfg : GraylogConfig)
    (ri : RelativeSearchInput) (ai : AbsoluteSearchInput) (r : HttpResponse)
    (data : GraylogSearchResponse)
    (hcfg : getGraylogConfig env = .ok cfg)
    (hok : responseOk r = true) (hjson : r.jsonBody = .ok data) :
    ((graylogGetRequest env relativeEndpoint (countRelativePayload ri)).map
        (fun req => List.lookup "limit" req.queryParams) = .ok (some "0"))
    ∧ ((graylogGetRequest env relativeEndpoint (countRelativePayload ri)).map
        (fun req => List.lookup "offset" req.queryParams) =
      .ok (some (toString (ri.offset.getD 0))))
    ∧ ((graylogGetRequest env absoluteEndpoint (countAbsolutePayload ai)).map
        (fun req => List.lookup "limit" req.queryParams) = .ok (some "0"))
    ∧ ((graylogGetRequest env absoluteEndpoint (countAbsolutePayload ai)).map
        (fun req => List.lookup "offset" req.queryParams) =
      .ok (some (toString (ai.offset.getD 0))))
    ∧ countRelativeLogsHandler env ri (.fetchOk r) = .success (countProjection data)
    ∧ countAbsoluteLogsHandler env ai (.fetchOk r) = .success (countProjection data)
    ∧ jsonKeys (countProjection data) = ["query", "took_ms", "total_results"]
    ∧ jsonLookup (countProjection data) "query" = some (.jstr data.query)
    ∧ jsonLookup (countProjection data) "took_ms" = some (.jnum data.took_ms)
    ∧ jsonLookup (countProjection data) "total_results" =
        some (.jnum data.total_results)
    ∧ jsonLookup (countProjection data) "messages" = none := by
  refine ⟨?_, ?_, ?_, ?_, ?_, ?_, rfl, rfl, rfl, rfl, rfl⟩
  · simp only [graylogGetRequest, hcfg, Except.map]
    congr 1
    simp only [countRelativePayload]
    rw [lookup_buildSearchParams _ _
        (withFields_keys_nodup _ (countRelativeInner_nodup ri)),
      lookup_withFields_ne _ _ (by decide) (countRelativeInner_nodup ri),
      lookup_objSet, if_neg (by decide), lookup_objSet]
    rfl
  · simp only [graylogGetRequest, hcfg, Except.map]
    congr 1
    simp only [countRelativePayload]
    rw [lookup_buildSearchParams _ _
        (withFields_keys_nodup _ (countRelativeInner_nodup ri)),
      lookup_withFields_ne _ _ (by decide) (countRelativeInner_nodup ri),
      lookup_objSet]
    rfl
  · simp only [graylogGetRequest, hcfg, Except.map]
    congr 1
    simp only [countAbsolutePayload]
    rw [lookup_buildSearchParams _ _
        (withFields_keys_nodup _ (countAbsoluteInner_nodup ai)),
      lookup_withFields_ne _ _ (by decide) (countAbsoluteInner_nodup ai),
      lookup_objSet, if_neg (by decide), lookup_objSet]
    rfl
  · simp only [graylogGetRequest, hcfg, Except.map]
    congr 1
    simp only [countAbsolutePayload]
    rw [lookup_buildSearchParams _ _
        (withFields_keys_nodup _ (countAbsoluteInner_nodup ai)),
      lookup_withFields_ne _ _ (by decide) (countAbsoluteInner_nodup ai),
      lookup_objSet]
    rfl
  · simp [countRelativeLogsHandler, graylogGet, graylogGetRequest, hcfg, hok, hjson]
  · simp [countAbsoluteLogsHandler, graylogGet, graylogGetRequest, hcfg, hok, hjson]

/-- Witness for C1: a concrete count call with a positive caller limit of 7
still sends limit=0 and offset=3, and its success payload has exactly the
three fields. -/
theorem count_tools_spec_witness :
    ((graylogGetRequest ⟨some "http://g/", some "u", some "p"⟩ relativeEndpoint
        (countRelativePayload ⟨"q", 5, some 7, some 3, none, none, none, none⟩)).map
      (fun req => List.lookup "limit" req.queryParams) = .ok (some "0"))
    ∧ ((graylogGetRequest ⟨some "http://g/", some "u", some "p"⟩ relativeEndpoint
        (countRelativePayload ⟨"q", 5, some 7, some 3, none, none, none, none⟩)).map
      (fun req => List.lookup "offset" req.queryParams) = .ok (some "3"))
    ∧ countRelativeLogsHandler ⟨some "http://g/", some "u", some "p"⟩
        ⟨"q", 5, some 7, some 3, none, none, none, none⟩
        (.fetchOk ⟨200, "OK", some "body", .ok ⟨"q", 12, 42, []⟩⟩) =
      .success (countProjection ⟨"q", 12, 42, []⟩)
    ∧ jsonKeys (countProjection ⟨"q", 12, 42, []⟩) =
        ["query", "took_ms", "total_results"]
    ∧ jsonLookup (countProjection ⟨"q", 12, 42, []⟩) "messages" = none := by
  have h := count_tools_spec ⟨some "http://g/", some "u", some "p"⟩
    ⟨"http://g/", "u", "p"⟩ ⟨"q", 5, some 7, some 3, none, none, none, none⟩
    ⟨"q", "a", "b", none, none, none, none, none, none⟩
    ⟨200, "OK", some "body", .ok ⟨"q", 12, 42, []⟩⟩ ⟨"q", 12, 42, []⟩
    rfl rfl rfl
  exact ⟨h.1, h.2.1, h.2.2.2.2.1, h.2.2.2.2.2.2.1, h.2.2.2.2.2.2.2.2.2.2⟩


end GraylogMcp
